import Mathlib

/-!
Verification of the audio-visualizer processing pipeline
(`Visualizer Generator.py` / `vizlab.py`): channel normalization,
time-windowing, the polar projection, the ffmpeg encoding command, and
the worker's run loop with its partial-failure recovery, modelled as a
shallow embedding.  Machine floats are modelled by exact rationals or
reals; a non-finite float value (NaN / Inf, as produced by numpy when
dividing by a zero peak) is modelled as `none`.
-/

namespace Viz

/-! ## Definitions

### Channel normalization

Source (`Visualizer Generator.py`, `Worker.run`):
  `left_channel = left_channel / np.max(np.abs(left_channel))`
with no check on the divisor.  numpy division is total: dividing by a
zero peak emits a runtime warning and fills the channel with non-finite
values (`0/0 = NaN`), it does not raise. -/

/-- `np.max(np.abs(xs))`: the peak absolute value of a channel.  The
fold starts at `0`, which is sound because absolute values are
non-negative (numpy's `max` on an empty array errors; channels here are
non-empty). -/
def peakAbs (xs : List ℚ) : ℚ :=
  (xs.map (fun x => |x|)).foldr max 0

/-- numpy elementwise division by a scalar: total, but a zero divisor
produces a non-finite value (NaN or Inf), modelled as `none`.  No
exception is raised in either case. -/
def npDiv (x y : ℚ) : Option ℚ :=
  if y = 0 then none else some (x / y)

/-- `channel / np.max(np.abs(channel))`: divide every sample by the
channel's peak absolute value, with no explicit zero-peak check. -/
def normalizeChannel (xs : List ℚ) : List (Option ℚ) :=
  xs.map (fun x => npDiv x (peakAbs xs))

/-! ### Window segmentation

Source:
  `frame_step = int(sr / self.fps)`
  `num_frames = len(left_channel) // frame_step`
  per frame `i`: `start = i * frame_step`,
  `end = min(start + frame_step, len(left_channel))`,
  `chunk = channel[start:end]`.
When `frame_step = 0`, the `//` raises a Python `ZeroDivisionError`
(caught only by the worker's blanket exception handler). -/

/-- `int(sr / fps)`: truncating division, i.e. `floor` for positive
arguments. -/
def frameStep (sr fps : ℕ) : ℕ := sr / fps

/-- The window of index `i`: `channel[i*step : min(i*step+step, len)]`. -/
def windowSlice (ch : List ℚ) (step i : ℕ) : List ℚ :=
  (ch.drop (i * step)).take (min (i * step + step) ch.length - i * step)

/-- All windows produced for one channel, in increasing index order. -/
def segmentChannel (ch : List ℚ) (step : ℕ) : List (List ℚ) :=
  (List.range (ch.length / step)).map (windowSlice ch step)

/-- Failure modes of the windowing stage.  `zeroDivisionError` is what
Python's `len // 0` raises.  `invalidFrameRate` is modelled from the
spec: the distinct error the spec requires when the frame step is
degenerate; it appears in this type only so that theorems can state
that the code never produces it. -/
inductive SegError where
  | zeroDivisionError : SegError
  | invalidFrameRate : SegError
deriving DecidableEq

/-- The windowing stage's frame count as the code computes it:
`num_frames = len // frame_step`, raising `ZeroDivisionError` when
`frame_step = int(sr / fps)` is zero. -/
def segmentCounts (total sr fps : ℕ) : Except SegError ℕ :=
  if frameStep sr fps = 0 then Except.error SegError.zeroDivisionError
  else Except.ok (total / frameStep sr fps)

/-! ### Polar projection

Source (per window):
  `amplitude = np.mean(np.abs(left_chunk) + np.abs(right_chunk)) * self.amplitude_scale`
  `theta = np.arctan2(right_chunk, left_chunk)`
  `r = np.sqrt(left_chunk**2 + right_chunk**2) * (1 + amplitude)`
Samples are modelled as reals; the paired traversal of the two
equal-length chunks is modelled by `List.zip`. -/

/-- `np.arctan2(y, x)`: the angle of the point `(x, y)` in `(-π, π]`,
with `arctan2 0 0 = 0`; this is exactly the argument of the complex
number `x + y·i`. -/
noncomputable def atan2 (y x : ℝ) : ℝ := Complex.arg ⟨x, y⟩

/-- `np.mean(np.abs(left_chunk) + np.abs(right_chunk)) * amplitude_scale`:
elementwise absolute values, elementwise sum, mean over the window,
scaled. -/
noncomputable def windowAmplitude (lc rc : List ℝ) (scale : ℝ) : ℝ :=
  ((lc.zip rc).map (fun p => |p.1| + |p.2|)).sum / ((lc.zip rc).length : ℝ) * scale

/-- `theta = np.arctan2(right_chunk, left_chunk)` for one sample pair. -/
noncomputable def projTheta (l r : ℝ) : ℝ := atan2 r l

/-- `r = np.sqrt(l**2 + r**2) * (1 + amplitude)` for one sample pair. -/
noncomputable def projRadius (l r amp : ℝ) : ℝ :=
  Real.sqrt (l ^ 2 + r ^ 2) * (1 + amp)

/-- The scatter of one window: one `(theta, radius)` pair per paired
input sample. -/
noncomputable def polarScatter (lc rc : List ℝ) (scale : ℝ) : List (ℝ × ℝ) :=
  (lc.zip rc).map
    (fun p => (projTheta p.1 p.2, projRadius p.1 p.2 (windowAmplitude lc rc scale)))

/-! ### Video compilation command

Source (`Worker.compile_video`): builds an ffmpeg invocation from the
sequential frame pattern `frame_%05d.png` at `framerate=fps`, scales and
pads to the target resolution, and sets
  `duration = num_frames_generated / self.fps`
as the output `t` (duration-limit) option alongside `vcodec='libx264'`,
`acodec='libmp3lame'`, `audio_bitrate='192k'`, `pix_fmt='yuv420p'`,
`r=fps`. -/

structure EncodeCommand where
  pattern : String
  framerate : ℕ
  scaleW : ℕ
  scaleH : ℕ
  padW : ℕ
  padH : ℕ
  vcodec : String
  acodec : String
  audioBitrate : String
  pixFmt : String
  r : ℕ
  t : ℚ
deriving DecidableEq

/-- The exact ffmpeg command `compile_video` constructs for `fps`, a
`(w, h)` resolution, and `num_frames_generated` frames. -/
def compileVideoCommand (fps w h numFramesGenerated : ℕ) : EncodeCommand :=
  { pattern := "frame_%05d.png"
    framerate := fps
    scaleW := w
    scaleH := h
    padW := w
    padH := h
    vcodec := "libx264"
    acodec := "libmp3lame"
    audioBitrate := "192k"
    pixFmt := "yuv420p"
    r := fps
    t := (numFramesGenerated : ℚ) / (fps : ℚ) }

/-- Modelled from the spec: ffmpeg's output `-t` option.  Without it the
muxed duration is the longer of the video stream (`N` frames at `fps`,
i.e. `N / fps` seconds) and the audio stream; with it the output is cut
at `t` seconds, so the result is the minimum of the two.  The tool
itself is external to the repository. -/
def outputDuration (cmd : EncodeCommand) (videoDur audioDur : ℚ) : ℚ :=
  min (max videoDur audioDur) cmd.t

/-! ### The worker's run loop and terminal reporting

Source (`Worker.run`, lines 88–138): per frame, rasterize and
`plt.savefig` the zero-padded file `frame_{i:05d}.png`, then increment
`num_frames_generated` and emit a progress percentage.  A rasterization
fault at frame `k` aborts the loop before the file for `k` is written.
After the loop (normally or via the blanket `except`) the worker
attempts `compile_video` whenever `num_frames_generated > 0` and the
audio file still exists, always deletes the temporary frames and the
input copy, and finally emits `finished` if any frames were generated,
`error` otherwise. -/

/-- The zero-padded frame file name `frame_{i:05d}.png`. -/
def frameFileName (i : ℕ) : String :=
  "frame_" ++ String.mk (List.replicate (5 - (toString i).length) '0')
    ++ toString i ++ ".png"

/-- State of the rendering loop: the frame counter, the PNG files
currently in temporary storage (in creation order), and whether an
exception has escaped an iteration. -/
structure LoopState where
  framesGenerated : ℕ
  store : List String
  halted : Bool
deriving DecidableEq

/-- One loop iteration at frame index `i`: if a rasterization fault
occurs (`failAt = some i`) the file is not written and the counter is
not incremented; otherwise the frame file is written first and only
then is `num_frames_generated` incremented.  After a fault the loop is
over, so later indices leave the state unchanged. -/
def stepFrame (failAt : Option ℕ) (s : LoopState) (i : ℕ) : LoopState :=
  if s.halted then s
  else if failAt = some i then { s with halted := true }
  else { framesGenerated := s.framesGenerated + 1
         store := s.store ++ [frameFileName i]
         halted := false }

/-- The loop state after attempting the first `t` of the frame
indices `0, 1, 2, …`. -/
def loopUpTo (failAt : Option ℕ) (t : ℕ) : LoopState :=
  (List.range t).foldl (stepFrame failAt) ⟨0, [], false⟩

/-- The frame files the encoder's sequential pattern `frame_%05d.png`
reads when told to encode `n` frames: indices `0 … n-1` in order. -/
def encoderReferences (n : ℕ) : List String :=
  (List.range n).map frameFileName

/-- Messages observable on the worker's signal channels. -/
inductive Event where
  | progressEvt : ℕ → Event
  | errorEvt : String → Event
  | finishedEvt : String → Event
deriving DecidableEq

/-- `e` is a terminal message (success summary or failure message), not
a progress event. -/
def isTerminal : Event → Bool
  | Event.progressEvt _ => false
  | Event.errorEvt _ => true
  | Event.finishedEvt _ => true

/-- The progress percentages emitted for the `g` completed frames
(float rounding of `int((i+1)/num_frames*100)` is abstracted to exact
truncating division). -/
def progressEvents (numFrames g : ℕ) : List Event :=
  (List.range g).map (fun i => Event.progressEvt ((i + 1) * 100 / numFrames))

/-- The error message `compile_video`'s failure produces on the worker's
channel, if any. -/
def compileOutcome (encodeOk : Bool) (file : String) : List Event :=
  if encodeOk then []
  else [Event.errorEvt ("Video compilation failed for " ++ file ++ ". Check log.")]

/-- Observable outcome of one `Worker.run`. -/
structure RunResult where
  framesGenerated : ℕ
  events : List Event
  compileInvoked : Bool
  compileFrames : ℕ
  videoProduced : Bool
  tempCleaned : Bool
  audioRemoved : Bool

/-- One `Worker.run` over `numFrames` windows.  `failAt = some k` means
an exception interrupts the loop at frame `k` (if the loop reaches it);
`audioExists` is whether the input copy is still on disk at
compile time; `encodeOk` is whether the external ffmpeg run succeeds.
Mirrors the source's control flow: the `except` branch emits an error
message and retries compilation with the frames generated so far; the
temp-frame sweep and input-file removal run unconditionally; the final
emission is `finished` iff `num_frames_generated > 0`. -/
def runWorker (file : String) (numFrames : ℕ) (failAt : Option ℕ)
    (audioExists encodeOk : Bool) : RunResult :=
  let g := (loopUpTo failAt numFrames).framesGenerated
  let excepted := match failAt with
    | some k => decide (k < numFrames)
    | none => false
  let invoke := decide (0 < g) && audioExists
  let midEvents :=
    if excepted then
      Event.errorEvt ("Error processing " ++ file ++ ". Check log.")
        :: (if invoke then compileOutcome encodeOk file else [])
    else
      (if invoke then compileOutcome encodeOk file else [])
  let finalEvent :=
    if 0 < g then
      Event.finishedEvt ("Processed " ++ file ++ " with " ++ toString g ++ " frames.")
    else
      Event.errorEvt ("No frames generated for " ++ file ++ ".")
  { framesGenerated := g
    events := progressEvents numFrames g ++ midEvents ++ [finalEvent]
    compileInvoked := invoke
    compileFrames := if invoke then g else 0
    videoProduced := invoke && encodeOk
    tempCleaned := true
    audioRemoved := audioExists }

/-! ## Supporting lemmas -/

theorem peakAbs_nonneg (xs : List ℚ) : 0 ≤ peakAbs xs := by
  induction xs with
  | nil => simp [peakAbs]
  | cons a l ih =>
      simp only [peakAbs, List.map_cons, List.foldr_cons]
      exact le_trans ih (le_max_right _ _)

theorem abs_le_peakAbs {xs : List ℚ} {x : ℚ} (hx : x ∈ xs) :
    |x| ≤ peakAbs xs := by
  induction xs with
  | nil => cases hx
  | cons a l ih =>
      rcases List.mem_cons.mp hx with h | h
      · subst h
        simp only [peakAbs, List.map_cons, List.foldr_cons]
        exact le_max_left _ _
      · simp only [peakAbs, List.map_cons, List.foldr_cons]
        exact le_trans (ih h) (le_max_right _ _)

theorem peakAbs_pos {xs : List ℚ} {x : ℚ} (hx : x ∈ xs) (hx0 : x ≠ 0) :
    0 < peakAbs xs :=
  lt_of_lt_of_le (abs_pos.mpr hx0) (abs_le_peakAbs hx)

theorem foldr_max_div (l : List ℚ) {p : ℚ} (hp : 0 < p) :
    (l.map (fun x => x / p)).foldr max 0 = (l.foldr max 0) / p := by
  induction l with
  | nil => simp
  | cons a t ih =>
      simp only [List.map_cons, List.foldr_cons, ih]
      exact max_div_div_right hp.le a _

theorem peakAbs_map_div {xs : List ℚ} {p : ℚ} (hp : 0 < p) :
    peakAbs (xs.map (fun x => x / p)) = peakAbs xs / p := by
  unfold peakAbs
  rw [List.map_map]
  have hcongr :
      xs.map ((fun x => |x|) ∘ fun x => x / p)
        = (xs.map (fun x => |x|)).map (fun x => x / p) := by
    rw [List.map_map]
    apply List.map_congr_left
    intro a _
    simp [Function.comp, abs_div, abs_of_pos hp]
  rw [hcongr, foldr_max_div _ hp]

theorem windowSlice_length {ch : List ℚ} {step i : ℕ} (hstep : 1 ≤ step)
    (hi : i < ch.length / step) :
    (windowSlice ch step i).length = step := by
  have hle : (i + 1) * step ≤ ch.length := by
    have h1 : i + 1 ≤ ch.length / step := hi
    exact (Nat.le_div_iff_mul_le (Nat.pos_of_ne_zero (by omega))).mp h1
  have hbound : i * step + step ≤ ch.length := by
    have : (i + 1) * step = i * step + step := by ring
    omega
  simp only [windowSlice, List.length_take, List.length_drop]
  omega

theorem windowSlice_get {ch : List ℚ} {step i : ℕ} (hstep : 1 ≤ step)
    (hi : i < ch.length / step) {j : ℕ} (hj : j < step) :
    (windowSlice ch step i)[j]? = ch[i * step + j]? := by
  have hle : (i + 1) * step ≤ ch.length := by
    have h1 : i + 1 ≤ ch.length / step := hi
    exact (Nat.le_div_iff_mul_le (Nat.pos_of_ne_zero (by omega))).mp h1
  have hbound : i * step + step ≤ ch.length := by
    have : (i + 1) * step = i * step + step := by ring
    omega
  have hmin : min (i * step + step) ch.length - i * step = step := by omega
  simp only [windowSlice, hmin]
  rw [List.getElem?_take_of_lt hj, List.getElem?_drop]

theorem getElem?_zip_eq {α β : Type} (as : List α) (bs : List β) (i : ℕ)
    (a : α) (b : β) (ha : as[i]? = some a) (hb : bs[i]? = some b) :
    (as.zip bs)[i]? = some (a, b) := by
  induction as generalizing bs i with
  | nil => simp at ha
  | cons x xs ih =>
      cases bs with
      | nil => simp at hb
      | cons y ys =>
          cases i with
          | zero =>
              simp only [List.getElem?_cons_zero, Option.some.injEq] at ha hb
              simp [List.zip_cons_cons, ha, hb]
          | succ n =>
              simp only [List.getElem?_cons_succ] at ha hb
              simpa [List.zip_cons_cons] using ih ys n ha hb

theorem zip_replicate_eq {α β : Type} (n : ℕ) (a : α) (b : β) :
    (List.replicate n a).zip (List.replicate n b) = List.replicate n (a, b) := by
  induction n with
  | zero => rfl
  | succ m ih => simp [List.replicate_succ, List.zip_cons_cons, ih]

theorem windowAmplitude_nonneg (lc rc : List ℝ) {scale : ℝ} (hs : 0 ≤ scale) :
    0 ≤ windowAmplitude lc rc scale := by
  apply mul_nonneg _ hs
  apply div_nonneg _ (Nat.cast_nonneg _)
  apply List.sum_nonneg
  intro x hx
  rcases List.mem_map.mp hx with ⟨p, _, rfl⟩
  positivity

theorem windowAmplitude_const_half (n : ℕ) (hn : 0 < n) :
    windowAmplitude (List.replicate n ((1 : ℝ) / 2))
      (List.replicate n ((1 : ℝ) / 2)) 1 = 1 := by
  have hz := zip_replicate_eq n ((1 : ℝ) / 2) ((1 : ℝ) / 2)
  unfold windowAmplitude
  rw [hz]
  have hmap : (List.replicate n (((1 : ℝ) / 2), ((1 : ℝ) / 2))).map
      (fun p => |p.1| + |p.2|) = List.replicate n 1 := by
    rw [List.map_replicate]
    have : |(1 : ℝ) / 2| + |(1 : ℝ) / 2| = 1 := by
      rw [abs_of_pos (by norm_num : (0 : ℝ) < 1 / 2)]
      norm_num
    rw [this]
  rw [hmap, List.sum_replicate, List.length_replicate]
  have hn' : (n : ℝ) ≠ 0 := Nat.cast_ne_zero.mpr hn.ne'
  simp [nsmul_eq_mul, hn']

theorem loopUpTo_succ (failAt : Option ℕ) (t : ℕ) :
    loopUpTo failAt (t + 1) = stepFrame failAt (loopUpTo failAt t) t := by
  unfold loopUpTo
  rw [List.range_succ, List.foldl_append, List.foldl_cons, List.foldl_nil]

/-- With no fault the loop completes all `t` iterations, writing the
frame files in index order. -/
theorem loopUpTo_none (t : ℕ) :
    loopUpTo none t = ⟨t, (List.range t).map frameFileName, false⟩ := by
  induction t with
  | zero => rfl
  | succ t ih =>
      rw [loopUpTo_succ, ih]
      simp [stepFrame, List.range_succ]

/-- With a fault at frame `k`, the loop completes exactly the frames
before `min k t` and halts iff the fault index was reached. -/
theorem loopUpTo_some (k t : ℕ) :
    loopUpTo (some k) t
      = ⟨min k t, (List.range (min k t)).map frameFileName, decide (k < t)⟩ := by
  induction t with
  | zero => simp [loopUpTo]
  | succ t ih =>
      rw [loopUpTo_succ, ih]
      unfold stepFrame
      by_cases hk : k < t
      · have hh : decide (k < t) = true := decide_eq_true hk
        rw [hh, if_pos rfl]
        have h1 : min k (t + 1) = min k t := by omega
        have h2 : decide (k < t + 1) = true := decide_eq_true (by omega)
        rw [h1, h2]
      · have hh : decide (k < t) = false := decide_eq_false hk
        rw [hh]
        rw [if_neg (by simp)]
        by_cases hkt : k = t
        · subst hkt
          rw [if_pos rfl]
          have h1 : min k k = k := by omega
          have h2 : min k (k + 1) = k := by omega
          have h3 : decide (k < k + 1) = true := decide_eq_true (by omega)
          rw [h1, h2, h3]
        · rw [if_neg (by simpa using hkt)]
          have h1 : min k t = t := by omega
          have h2 : min k (t + 1) = t + 1 := by omega
          have h3 : decide (k < t + 1) = false := decide_eq_false (by omega)
          rw [h1, h2, h3]
          simp [List.range_succ]

theorem runWorker_framesGenerated (file : String) (numFrames : ℕ)
    (failAt : Option ℕ) (audioExists encodeOk : Bool) :
    (runWorker file numFrames failAt audioExists encodeOk).framesGenerated
      = (match failAt with | some k => min k numFrames | none => numFrames) := by
  cases failAt with
  | none => simp [runWorker, loopUpTo_none]
  | some k => simp [runWorker, loopUpTo_some]

/-! ## Claim theorems -/

/-- C2: with `frame_step = int(sr / fps)` at least `1`, the segmenter
produces exactly `num_frames = total / frame_step` windows; window `i`
has exactly `frame_step` samples and holds the consecutive samples
`i*frame_step … i*frame_step + frame_step - 1`, so the windows are
non-overlapping and in increasing index order; the covered prefix is
`num_frames * frame_step ≤ total` and the dropped remainder is shorter
than one window. -/
theorem window_segmentation (ch : List ℚ) (sr fps : ℕ)
    (hstep : 1 ≤ frameStep sr fps) :
    (segmentChannel ch (frameStep sr fps)).length = ch.length / frameStep sr fps ∧
    (∀ i, i < ch.length / frameStep sr fps →
      (windowSlice ch (frameStep sr fps) i).length = frameStep sr fps ∧
      ∀ j, j < frameStep sr fps →
        (windowSlice ch (frameStep sr fps) i)[j]? = ch[i * frameStep sr fps + j]?) ∧
    ch.length / frameStep sr fps * frameStep sr fps ≤ ch.length ∧
    ch.length < (ch.length / frameStep sr fps + 1) * frameStep sr fps := by
  refine ⟨by simp [segmentChannel],
    fun i hi => ⟨windowSlice_length hstep hi, fun j hj => windowSlice_get hstep hi hj⟩,
    Nat.div_mul_le_self _ _, ?_⟩
  have hs : 0 < frameStep sr fps := hstep
  have h1 := Nat.div_add_mod ch.length (frameStep sr fps)
  have h2 := Nat.mod_lt ch.length hs
  have h3 : (ch.length / frameStep sr fps + 1) * frameStep sr fps
      = frameStep sr fps * (ch.length / frameStep sr fps) + frameStep sr fps := by
    ring
  omega

/-- C2 witness: 441000 samples at `sr = 44100` and `fps = 30` give
`frame_step = 1470` and exactly 300 windows. -/
theorem window_segmentation_witness :
    (segmentChannel (List.replicate 441000 (0 : ℚ)) (frameStep 44100 30)).length
      = 300 := by
  have h := window_segmentation (List.replicate 441000 (0 : ℚ)) 44100 30
    (by norm_num [frameStep])
  rw [h.1, List.length_replicate]
  norm_num [frameStep]

/-- C9 counterexample: at `sr = 44100`, `fps = 44101` the computed
`frame_step` is `0` and the windowing stage fails with Python's
`ZeroDivisionError` raised by `len // frame_step` — not with the
distinct `InvalidFrameRate` error the claim requires. -/
theorem frame_step_zero_counterexample :
    segmentCounts 441000 44100 44101 = Except.error SegError.zeroDivisionError ∧
    segmentCounts 441000 44100 44101 ≠ Except.error SegError.invalidFrameRate := by
  constructor
  · simp [segmentCounts, frameStep]
  · intro h
    simp [segmentCounts, frameStep] at h

/-- C9 (amended): whenever `frame_step = int(sr / fps) < 1` the
windowing stage fails, but with the generic Python `ZeroDivisionError`
(swallowed by the worker's blanket exception handler) instead of a
distinct `InvalidFrameRate` error; no such check exists in the code. -/
theorem frame_step_zero_amended (total sr fps : ℕ)
    (h : frameStep sr fps = 0) :
    segmentCounts total sr fps = Except.error SegError.zeroDivisionError := by
  simp [segmentCounts, h]

/-- C9 amended-claim witness at `sr = 44100`, `fps = 44101`. -/
theorem frame_step_zero_amended_witness :
    segmentCounts 5 44100 44101 = Except.error SegError.zeroDivisionError :=
  frame_step_zero_amended 5 44100 44101 (by norm_num [frameStep])

/-- C3 counterexample: the all-zero channel.  The code performs no
zero-peak check: `np.max(np.abs(channel))` is `0`, the division
proceeds anyway, and every sample of the result is non-finite
(`0/0 = NaN`, modelled `none`); the run continues with the NaN-filled
channel instead of raising a `SilentChannelError`. -/
theorem normalize_zero_counterexample :
    normalizeChannel [(0 : ℚ), 0] = [none, none] := by
  simp [normalizeChannel, npDiv, peakAbs]

/-- C3 (amended): normalization divides every sample by the channel's
peak absolute value, and for every channel with at least one non-zero
sample the normalized channel is finite with peak absolute value
exactly `1`; but a channel whose peak is exactly zero is NOT rejected
by an explicit check — the division by zero happens and non-finite
values (NaN) propagate, as shown by the counterexample. -/
theorem normalize_peak_amended (xs : List ℚ) (x : ℚ) (hx : x ∈ xs)
    (hx0 : x ≠ 0) :
    normalizeChannel xs = xs.map (fun a => some (a / peakAbs xs)) ∧
    peakAbs (xs.map (fun a => a / peakAbs xs)) = 1 := by
  have hp : 0 < peakAbs xs := peakAbs_pos hx hx0
  constructor
  · unfold normalizeChannel
    apply List.map_congr_left
    intro a _
    simp [npDiv, hp.ne']
  · rw [peakAbs_map_div hp, div_self hp.ne']

/-- C3 amended-claim witness on the channel `[1/2]`: peak `1/2`,
normalized channel `[1]`, normalized peak exactly `1`. -/
theorem normalize_peak_amended_witness :
    normalizeChannel [(1 : ℚ) / 2] = [some 1] ∧
    peakAbs ([(1 : ℚ) / 2].map (fun a => a / peakAbs [(1 : ℚ) / 2])) = 1 := by
  have h := normalize_peak_amended [(1 : ℚ) / 2] ((1 : ℚ) / 2)
    (by simp) (by norm_num)
  refine ⟨?_, h.2⟩
  rw [h.1]
  have habs : |(1 : ℚ) / 2| = 1 / 2 := abs_of_pos (by norm_num)
  norm_num [peakAbs, habs]

/-- C1: for every window with equal-length chunks and positive
`amplitude_scale`, the projection yields exactly one `(theta, radius)`
pair per input sample, where for the `i`-th pair `(l, r)` the output is
`theta = atan2(r, l)` and
`radius = sqrt(l² + r²) * (1 + window_amplitude)` with
`window_amplitude = mean(|left| + |right|) * amplitude_scale`; in
particular with `amplitude_scale = 1` and both chunks constant `1/2`
the window amplitude is exactly `1` and every radius is `sqrt(1/2)*2`. -/
theorem polar_projection_formula (lc rc : List ℝ) (scale : ℝ) (n : ℕ)
    (hlen : lc.length = rc.length) (hscale : 0 < scale) (hn : 0 < n) :
    (polarScatter lc rc scale).length = lc.length ∧
    (∀ (i : ℕ) (l r : ℝ), lc[i]? = some l → rc[i]? = some r →
      (polarScatter lc rc scale)[i]?
        = some (atan2 r l,
            Real.sqrt (l ^ 2 + r ^ 2) * (1 + windowAmplitude lc rc scale))) ∧
    windowAmplitude (List.replicate n ((1 : ℝ) / 2))
      (List.replicate n ((1 : ℝ) / 2)) 1 = 1 ∧
    (∀ p ∈ polarScatter (List.replicate n ((1 : ℝ) / 2))
        (List.replicate n ((1 : ℝ) / 2)) 1,
      p.2 = Real.sqrt (1 / 2) * 2) := by
  refine ⟨?_, ?_, windowAmplitude_const_half n hn, ?_⟩
  · simp [polarScatter, hlen]
  · intro i l r ha hb
    unfold polarScatter
    rw [List.getElem?_map, getElem?_zip_eq lc rc i l r ha hb]
    rfl
  · intro p hp
    unfold polarScatter at hp
    rcases List.mem_map.mp hp with ⟨q, hq, rfl⟩
    rw [zip_replicate_eq] at hq
    have hq' : q = (((1 : ℝ) / 2), ((1 : ℝ) / 2)) := List.eq_of_mem_replicate hq
    subst hq'
    show projRadius ((1 : ℝ) / 2) ((1 : ℝ) / 2) _ = _
    rw [windowAmplitude_const_half n hn]
    unfold projRadius
    have hsq : ((1 : ℝ) / 2) ^ 2 + ((1 : ℝ) / 2) ^ 2 = 1 / 2 := by norm_num
    rw [hsq]
    norm_num

/-- C1 witness: two-sample constant-`1/2` chunks with
`amplitude_scale = 1` give two scatter points and window amplitude
exactly `1`. -/
theorem polar_projection_formula_witness :
    (polarScatter [(1 : ℝ) / 2, 1 / 2] [(1 : ℝ) / 2, 1 / 2] 1).length = 2 ∧
    windowAmplitude (List.replicate 2 ((1 : ℝ) / 2))
      (List.replicate 2 ((1 : ℝ) / 2)) 1 = 1 := by
  have h := polar_projection_formula [(1 : ℝ) / 2, 1 / 2] [(1 : ℝ) / 2, 1 / 2]
    1 2 rfl one_pos (by norm_num)
  exact ⟨by simpa using h.1, h.2.2.1⟩

/-- C4: for a non-negative `amplitude_scale`, every scatter point has
`radius ≥ 0` and `theta ∈ (-π, π]`; and the pair `l = r = 0` projects
to radius exactly `0` whatever the window amplitude. -/
theorem projection_range (lc rc : List ℝ) (scale : ℝ) (hscale : 0 ≤ scale) :
    (∀ p ∈ polarScatter lc rc scale,
      0 ≤ p.2 ∧ p.1 ∈ Set.Ioc (-Real.pi) Real.pi) ∧
    (∀ amp : ℝ, projRadius 0 0 amp = 0) := by
  constructor
  · intro p hp
    unfold polarScatter at hp
    rcases List.mem_map.mp hp with ⟨q, _, rfl⟩
    constructor
    · show 0 ≤ projRadius q.1 q.2 _
      unfold projRadius
      have hamp := windowAmplitude_nonneg lc rc hscale
      exact mul_nonneg (Real.sqrt_nonneg _) (by linarith)
    · show projTheta q.1 q.2 ∈ _
      unfold projTheta atan2
      exact Complex.arg_mem_Ioc _
  · intro amp
    unfold projRadius
    norm_num

/-- C4 witness: the single silent pair `(0, 0)` at `amplitude_scale = 1`
has non-negative radius and an angle in `(-π, π]`. -/
theorem projection_range_witness :
    0 ≤ (projTheta 0 0, projRadius 0 0 (windowAmplitude [(0 : ℝ)] [(0 : ℝ)] 1)).2 ∧
    (projTheta 0 0, projRadius 0 0 (windowAmplitude [(0 : ℝ)] [(0 : ℝ)] 1)).1
      ∈ Set.Ioc (-Real.pi) Real.pi := by
  have h := projection_range [(0 : ℝ)] [(0 : ℝ)] 1 (by norm_num)
  exact h.1 _ (by simp [polarScatter])

/-- C5: for every job reaching encoding with `N > 0` frames at rate
`fps`, the constructed ffmpeg command carries the duration-limit option
`t = N / fps`, so the muxed output — whose unclamped duration would be
the longer of the `N / fps` video stream and the audio stream — is cut
to exactly `N / fps` seconds: longer audio is truncated, and no frames
are interpolated to stretch the video. -/
theorem encode_duration_clamped (fps w h numGen : ℕ) (audioDur : ℚ)
    (hfps : 0 < fps) (hgen : 0 < numGen) (haud : 0 ≤ audioDur) :
    (compileVideoCommand fps w h numGen).t = (numGen : ℚ) / (fps : ℚ) ∧
    outputDuration (compileVideoCommand fps w h numGen)
        ((numGen : ℚ) / (fps : ℚ)) audioDur = (numGen : ℚ) / (fps : ℚ) := by
  refine ⟨rfl, ?_⟩
  unfold outputDuration compileVideoCommand
  exact min_eq_right (le_max_left _ _)

/-- C5 witness: 300 frames at 30 fps with source audio of 10.02 s mux
to exactly 10 s. -/
theorem encode_duration_clamped_witness :
    (compileVideoCommand 30 1280 720 300).t = 10 ∧
    outputDuration (compileVideoCommand 30 1280 720 300) 10 (501 / 50) = 10 := by
  have h := encode_duration_clamped 30 1280 720 300 (501 / 50)
    (by norm_num) (by norm_num) (by norm_num)
  have h1 := h.1
  have h2 := h.2
  norm_num at h1 h2
  exact ⟨h1, h2⟩

/-- C6: if an exception interrupts the rendering loop at frame `k` with
`0 < k` frames already produced (and the input audio still on disk, as
it is throughout a job), the worker does not discard them: it invokes
`compile_video` with exactly those `k` frames, temporary storage is
cleaned afterward, and the job ends with the `Completed` summary or
with a reported encoding-failure message (the latter whenever the
encoder fails). -/
theorem partial_recovery (file : String) (numFrames k : ℕ) (encodeOk : Bool)
    (hk0 : 0 < k) (hk : k < numFrames) :
    (runWorker file numFrames (some k) true encodeOk).framesGenerated = k ∧
    (runWorker file numFrames (some k) true encodeOk).compileInvoked = true ∧
    (runWorker file numFrames (some k) true encodeOk).compileFrames = k ∧
    (runWorker file numFrames (some k) true encodeOk).tempCleaned = true ∧
    (Event.finishedEvt ("Processed " ++ file ++ " with " ++ toString k ++ " frames.")
        ∈ (runWorker file numFrames (some k) true encodeOk).events ∨
      Event.errorEvt ("Video compilation failed for " ++ file ++ ". Check log.")
        ∈ (runWorker file numFrames (some k) true encodeOk).events) ∧
    (encodeOk = false →
      Event.errorEvt ("Video compilation failed for " ++ file ++ ". Check log.")
        ∈ (runWorker file numFrames (some k) true encodeOk).events) := by
  have hmin : min k numFrames = k := by omega
  have hloop : loopUpTo (some k) numFrames
      = ⟨k, (List.range k).map frameFileName, decide (k < numFrames)⟩ := by
    rw [loopUpTo_some, hmin]
  have h1 : decide (k < numFrames) = true := decide_eq_true hk
  have h2 : decide (0 < k) = true := decide_eq_true hk0
  refine ⟨?_, ?_, ?_, ?_, ?_, ?_⟩
  · simp [runWorker, hloop]
  · simp [runWorker, hloop, h2]
  · simp [runWorker, hloop, h2]
  · simp [runWorker, hloop]
  · left
    simp [runWorker, hloop, h1, h2, hk0]
  · intro he
    subst he
    simp [runWorker, hloop, h1, h2, compileOutcome]

/-- C6 witness: a fault at frame 1 of 2 with a succeeding encoder still
compiles the single generated frame. -/
theorem partial_recovery_witness :
    (runWorker "a.mp3" 2 (some 1) true true).framesGenerated = 1 ∧
    (runWorker "a.mp3" 2 (some 1) true true).compileInvoked = true ∧
    (runWorker "a.mp3" 2 (some 1) true true).compileFrames = 1 := by
  have h := partial_recovery "a.mp3" 2 1 true (by norm_num) (by norm_num)
  exact ⟨h.1, h.2.1, h.2.2.1⟩

/-- C7: a run that ends with `frames_generated = 0` — for any
combination of window count, fault position, audio presence and
encoder outcome — never invokes the encoder, produces no video, and
terminates in the failed state: its last emitted message is the
diagnostic `No frames generated …`. -/
theorem zero_frames_failed (file : String) (numFrames : ℕ)
    (failAt : Option ℕ) (audioExists encodeOk : Bool)
    (h : (runWorker file numFrames failAt audioExists encodeOk).framesGenerated
        = 0) :
    (runWorker file numFrames failAt audioExists encodeOk).compileInvoked
        = false ∧
    (runWorker file numFrames failAt audioExists encodeOk).videoProduced
        = false ∧
    (runWorker file numFrames failAt audioExists encodeOk).events.getLast?
      = some (Event.errorEvt ("No frames generated for " ++ file ++ ".")) := by
  have hg : (loopUpTo failAt numFrames).framesGenerated = 0 := h
  refine ⟨?_, ?_, ?_⟩
  · simp [runWorker, hg]
  · simp [runWorker, hg]
  · simp only [runWorker, hg]
    rw [List.getLast?_append_of_ne_nil _ (by simp)]
    simp

/-- C7 witness: a zero-window job (so zero frames) fails with the
diagnostic and produces no video. -/
theorem zero_frames_failed_witness :
    (runWorker "a.mp3" 0 none true true).compileInvoked = false ∧
    (runWorker "a.mp3" 0 none true true).videoProduced = false ∧
    (runWorker "a.mp3" 0 none true true).events.getLast?
      = some (Event.errorEvt ("No frames generated for " ++ "a.mp3" ++ ".")) :=
  zero_frames_failed "a.mp3" 0 none true true rfl

/-- C8 counterexample: one window renders, the encoder fails.  The run
emits the failure message `Video compilation failed …` AND the success
summary `Processed … 1 frames.` — two terminal messages, one of each
kind — refuting `exactly one terminal message, never both`. -/
theorem terminal_message_counterexample :
    Event.errorEvt ("Video compilation failed for " ++ "a.mp3" ++ ". Check log.")
      ∈ (runWorker "a.mp3" 1 none true false).events ∧
    Event.finishedEvt ("Processed " ++ "a.mp3" ++ " with " ++ toString 1
        ++ " frames.")
      ∈ (runWorker "a.mp3" 1 none true false).events ∧
    ((runWorker "a.mp3" 1 none true false).events.filter isTerminal).length
      = 2 := by
  refine ⟨?_, ?_, ?_⟩ <;>
    simp [runWorker, loopUpTo_none, progressEvents, compileOutcome, isTerminal]

/-- C8 (amended): every run emits at least one terminal message, and
its final message is a single terminal event — the success summary
exactly when `frames_generated > 0`, the failure diagnostic otherwise;
but it need not be the only terminal message of the run: mid-loop and
encoding failure messages can precede a final success summary, so one
job can emit both kinds (see the counterexample). -/
theorem terminal_message_amended (file : String) (numFrames : ℕ)
    (failAt : Option ℕ) (audioExists encodeOk : Bool) :
    ((runWorker file numFrames failAt audioExists encodeOk).events.filter
        isTerminal) ≠ [] ∧
    (runWorker file numFrames failAt audioExists encodeOk).events.getLast?
      = some (if 0 < (runWorker file numFrames failAt audioExists
            encodeOk).framesGenerated
          then Event.finishedEvt ("Processed " ++ file ++ " with "
              ++ toString (runWorker file numFrames failAt audioExists
                  encodeOk).framesGenerated ++ " frames.")
          else Event.errorEvt ("No frames generated for " ++ file ++ ".")) := by
  constructor
  · apply List.ne_nil_of_mem (a := if 0 < (loopUpTo failAt numFrames).framesGenerated
        then Event.finishedEvt ("Processed " ++ file ++ " with "
            ++ toString (loopUpTo failAt numFrames).framesGenerated ++ " frames.")
        else Event.errorEvt ("No frames generated for " ++ file ++ "."))
    rw [List.mem_filter]
    constructor
    · simp only [runWorker]
      exact List.mem_append_right _ (List.mem_singleton.mpr rfl)
    · by_cases hg : 0 < (loopUpTo failAt numFrames).framesGenerated
      · simp [hg, isTerminal]
      · simp [hg, isTerminal]
  · simp only [runWorker]
    rw [List.getLast?_append_of_ne_nil _ (by simp)]
    simp

/-- C10: after any prefix of the rendering loop — complete, partial, or
interrupted by a rasterization fault — temporary storage holds exactly
the zero-padded frame files of indices `0 … frames_generated - 1` (the
counter is bumped only after a frame file is written), the counter
never exceeds `num_frames`, and every file the encoder's sequential
`frame_%05d.png` pattern reads for `frames_generated` frames is present
in the store. -/
theorem render_loop_invariant (failAt : Option ℕ) (numFrames t : ℕ)
    (ht : t ≤ numFrames) :
    (loopUpTo failAt t).store
      = (List.range (loopUpTo failAt t).framesGenerated).map frameFileName ∧
    (loopUpTo failAt t).framesGenerated ≤ numFrames ∧
    ∀ name ∈ encoderReferences (loopUpTo failAt t).framesGenerated,
      name ∈ (loopUpTo failAt t).store := by
  cases failAt with
  | none =>
      rw [loopUpTo_none]
      exact ⟨rfl, ht, fun name hname => hname⟩
  | some k =>
      rw [loopUpTo_some]
      exact ⟨rfl, by simp; omega, fun name hname => hname⟩

/-- C10 witness: a fault at frame 1 of 3 leaves exactly
`frame_00000.png` in the store, matching a one-frame encode. -/
theorem render_loop_invariant_witness :
    (loopUpTo (some 1) 3).store
      = (List.range (loopUpTo (some 1) 3).framesGenerated).map frameFileName ∧
    (loopUpTo (some 1) 3).framesGenerated ≤ 3 := by
  have h := render_loop_invariant (some 1) 3 3 (by norm_num)
  exact ⟨h.1, h.2.1⟩

end Viz
